import Mathlib

/-!
Verification of the evoface-attendance identification and liveness-gating
engine against its natural-language specification.

The definitions below are a shallow embedding of the Python sources:
* `src/core/detector.py`   — `FaceDetector.process`, `reset_liveness`
* `src/core/recognizer.py` — `FaceRecognizer.identify`, `process_attendance`
* `src/core/database.py`   — `AttendanceDB.add_attendance_log`,
  `approve_request`, `register_employee`

Machine floats are modelled as exact rationals (control-flow code) or real
numbers (vector arithmetic involving square roots).  External models
(landmark detector, liveness classifier, embedding extractor, SHA-256) are
inputs or parameters of the embedded functions.
-/

namespace Evoface

/-! ## Liveness gate (`src/core/detector.py`)

`FaceDetector.process` keeps per-session state `liveness_score` (a float,
clamped to `[0, 1.2]`) and `is_locked`.  The per-frame observations coming
from the external MediaPipe / Silent-Face models are bundled into `DFrame`:
the number of detected faces, the value returned by `_check_3d_parallax`
(which is one of `-0.05`, `0.0`, `0.15`), the eye-aspect value returned by
`_calculate_ear`, whether the face crop is nonempty, and the texture score
returned by `SilentFaceAnalyzer.predict`. -/

/-- Result of `_check_3d_parallax`: `-0.05` for a static nose, `0.15` when
the depth-change spread falls in the live range, `0.0` otherwise. -/
inductive ParallaxKind where
  | static
  | neutral
  | moving
  deriving DecidableEq, Repr

/-- Numeric value `_check_3d_parallax` contributes to `liveness_score`. -/
def parallaxVal : ParallaxKind → ℚ
  | .static  => -(1/20)
  | .neutral => 0
  | .moving  => 3/20

/-- Per-frame observations feeding `FaceDetector.process`. -/
structure DFrame where
  numFaces : ℕ
  parallax : ParallaxKind
  ear : ℚ
  cropNonempty : Bool
  texture : ℚ
  deriving DecidableEq, Repr

/-- Mutable liveness state of one `FaceDetector` instance. -/
structure DState where
  score : ℚ
  locked : Bool
  deriving DecidableEq, Repr

/-- Status strings returned by `FaceDetector.process`.  `FACE_TOO_SMALL`
is included because the UI callers pattern-match on it; the theorems show
`process` never produces it. -/
inductive DStatus where
  | NO_FACE
  | MULTIPLE_FACES
  | FACE_TOO_SMALL
  | SUCCESS
  deriving DecidableEq, Repr

/-- Configured thresholds read from `config.yaml` in `FaceDetector.__init__`:
`liveness_score` (default 1.0) and `texture_liveness` (default 0.9). -/
structure DConfig where
  livenessThreshold : ℚ
  textureThreshold : ℚ
  deriving DecidableEq, Repr

/-- Default detector thresholds. -/
def dcfg0 : DConfig := ⟨1, 9/10⟩

/-- Model of `FaceDetector.reset_liveness`: zero the score and unlock. -/
def resetLiveness : DState := ⟨0, false⟩

/-- The geometric score update of `process` (detector.py lines 117-122):
add the parallax result, add `0.1` when the eye-aspect value lies in
`(0.1, 0.22)`, then clamp into `[0, 1.2]`. -/
def updatedScore (s : DState) (f : DFrame) : ℚ :=
  max 0 (min ((s.score + parallaxVal f.parallax) +
    (if 1/10 < f.ear ∧ f.ear < 22/100 then 1/10 else 0)) (6/5))

/-- Model of `FaceDetector.process` (detector.py lines 92-148) restricted to its
state machine: landmark extraction, bbox computation and history push are
absorbed into the `DFrame` observations. -/
def processFrame (cfg : DConfig) (s : DState) (f : DFrame) : DStatus × DState :=
  if f.numFaces = 0 then
    (.NO_FACE, resetLiveness)
  else if 1 < f.numFaces then
    (.MULTIPLE_FACES, s)
  else if s.locked then
    (.SUCCESS, ⟨cfg.livenessThreshold, true⟩)
  else
    if cfg.livenessThreshold ≤ updatedScore s f then
      if f.cropNonempty then
        if cfg.textureThreshold ≤ f.texture then
          (.SUCCESS, ⟨updatedScore s f, true⟩)
        else
          (.SUCCESS, ⟨2/5, false⟩)
      else
        (.SUCCESS, ⟨updatedScore s f, false⟩)
    else
      (.SUCCESS, ⟨updatedScore s f, false⟩)

/-- Fold `processFrame` over a frame sequence, keeping only the state. -/
def runFrames (cfg : DConfig) (s : DState) (fs : List DFrame) : DState :=
  fs.foldl (fun st f => (processFrame cfg st f).2) s

/-- A frame carrying a liveness cue: one face, eye-aspect in the live
range (contributes `+0.1`), passing texture. -/
def passFrame : DFrame := ⟨1, .neutral, 3/20, true, 1⟩

/-- A frame without liveness cues: one face, static nose (`-0.05`),
eye-aspect outside the live range. -/
def failFrame : DFrame := ⟨1, .static, 1/2, true, 1⟩

/-- A frame on which the landmark model reports two faces. -/
def twoFaceFrame : DFrame := ⟨2, .neutral, 3/20, true, 1⟩

/-! ## Real vectors

Float vectors (numpy arrays) are modelled as lists of reals; `np.dot`,
`np.linalg.norm`, scalar multiplication and elementwise addition become
`dotV`, `nrm`, `scaleV`, `addV`. -/

/-- Embedding vectors (numpy float arrays). -/
abbrev Vec := List ℝ

/-- Model of `np.dot` on two vectors. -/
def dotV (a b : Vec) : ℝ := (List.zipWith (fun x y => x * y) a b).sum

/-- Sum of squared entries. -/
def normSq (v : Vec) : ℝ := dotV v v

/-- Model of `np.linalg.norm`: the Euclidean norm. -/
noncomputable def nrm (v : Vec) : ℝ := Real.sqrt (normSq v)

/-- Multiply a vector by a scalar (`c * v`, also used for `v / d` as
`(1/d) * v`). -/
def scaleV (c : ℝ) (v : Vec) : Vec := v.map (fun x => c * x)

/-- Elementwise vector addition. -/
def addV (a b : Vec) : Vec := List.zipWith (fun x y => x + y) a b

/-- The literal `1e-10` used to guard divisions in `recognizer.py`. -/
noncomputable def eps : ℝ := 1 / 10 ^ 10

/-! ## Attendance store (`src/core/database.py`)

Rows of the SQLite `employees` and `logs` tables.  Timestamps are rational
numbers of seconds; the score columns of `logs` are parametric in a score
type `α` (the code stores them without arithmetic). -/

/-- One row of the `logs` table. -/
structure AttLog (α : Type) where
  emp_id : String
  ts : ℚ
  confidence : α
  base_score : α
  dynamic_score : α
  photo_path : String

/-- Largest element of a list of timestamps, `none` on the empty list. -/
def maxTs (l : List ℚ) : Option ℚ :=
  l.foldl (fun acc t => match acc with
    | none => some t
    | some m => some (max m t)) none

/-- The debounce query `SELECT timestamp FROM logs WHERE employee_id=?
ORDER BY timestamp DESC LIMIT 1`: the identity's most recent log timestamp. -/
def lastLogTs {α : Type} (logs : List (AttLog α)) (emp : String) : Option ℚ :=
  maxTs ((logs.filter (fun l => l.emp_id = emp)).map (fun l => l.ts))

/-- Model of `AttendanceDB.add_attendance_log` (database.py lines 241-270): read
the most recent timestamp; reject when `now - last < debounce_minutes*60`
with the remaining wait in whole seconds (`int()` of a positive float =
floor) and leave the table unchanged; otherwise append the row.  Returns
`((accepted, remaining wait if rejected), new table)`. -/
def addAttendanceLog {α : Type} (dmin : ℚ) (logs : List (AttLog α)) (now : ℚ)
    (emp : String) (conf bs ds : α) (photo : String) :
    (Bool × Option ℤ) × List (AttLog α) :=
  match lastLogTs logs emp with
  | some last =>
      if now - last < dmin * 60 then
        ((false, some ⌊dmin * 60 - (now - last)⌋), logs)
      else
        ((true, none), logs ++ [⟨emp, now, conf, bs, ds, photo⟩])
  | none => ((true, none), logs ++ [⟨emp, now, conf, bs, ds, photo⟩])

/-- An approved backfill request (`manual_requests` row): calendar dates
are modelled as day numbers, the requested clock time as hour/minute. -/
structure ManualRequest where
  emp_id : String
  target_date : ℤ
  request_hour : ℕ
  request_minute : ℕ

/-- The day-cutoff resolution in `AttendanceDB.approve_request`
(database.py lines 209-222): a requested clock time whose hour is
strictly below the cutoff hour belongs to the next calendar day. -/
def resolveBackfill (cutoff_hour : ℕ) (d : ℤ) (h m : ℕ) : ℤ × ℕ × ℕ :=
  if h < cutoff_hour then (d + 1, h, m) else (d, h, m)

/-- Convert a calendar day plus clock time to a timestamp in seconds. -/
def dayTimeToTs (d : ℤ) (h m : ℕ) : ℚ := d * 86400 + h * 3600 + m * 60

/-- Model of `AttendanceDB.approve_request` (database.py lines 187-238), restricted
to the log write: on approval, resolve the timestamp by the day-cutoff
rule and insert the row (`photo_path='MANUAL_APPROVAL'`, confidence 1,
scores 0) directly — no debounce check; any other status writes nothing.
Request lookup by id and the status-column update are not modelled. -/
def approveRequest (cutoff_hour : ℕ) (logs : List (AttLog ℚ))
    (req : ManualRequest) (status : String) : List (AttLog ℚ) :=
  if status = "approved" then
    let r := resolveBackfill cutoff_hour req.target_date req.request_hour req.request_minute
    logs ++ [⟨req.emp_id, dayTimeToTs r.1 r.2.1 r.2.2, 1, 0, 0, "MANUAL_APPROVAL"⟩]
  else logs

/-- One row of the `employees` table. -/
structure EmployeeRow where
  emp_id : String
  name : String
  password_hash : String
  default_shift : Option String
  base_feature : Vec
  dynamic_feature : Option Vec
  last_updated : Option ℚ

/-- Python's `password if password else emp_id`: `None` and the empty
string both fall back to the employee id. -/
def pwdOrDefault (emp_id : String) (password : Option String) : String :=
  match password with
  | some p => if p = "" then emp_id else p
  | none => emp_id

/-- Model of `AttendanceDB.register_employee` (database.py lines 112-123):
`INSERT OR REPLACE` keyed on `employee_id` — the conflicting row is
deleted and a fresh row inserted with only the listed columns, so
`dynamic_feature` becomes `NULL` and `password_hash` is recomputed from
the supplied password (or the employee id).  The SHA-256 hex digest is an
external function passed as `hash`. -/
def registerEmployee (hash : String → String) (now : ℚ) (db : List EmployeeRow)
    (emp_id name : String) (feat : Vec) (password : Option String)
    (default_shift : Option String) : List EmployeeRow :=
  db.filter (fun r => r.emp_id ≠ emp_id) ++
    [⟨emp_id, name, hash (pwdOrDefault emp_id password), default_shift, feat, none, some now⟩]

/-- Lookup `SELECT ... WHERE employee_id = ?`: first row with the id. -/
def findEmp (db : List EmployeeRow) (emp : String) : Option EmployeeRow :=
  db.find? (fun r => r.emp_id = emp)

/-- Model of `AttendanceDB.update_dynamic_feature` (database.py lines 272-278):
set `dynamic_feature` and `last_updated` on every row with the id. -/
def updateDynamicFeature (db : List EmployeeRow) (emp : String) (now : ℚ)
    (v : Vec) : List EmployeeRow :=
  db.map (fun r => if r.emp_id = emp then
    ⟨r.emp_id, r.name, r.password_hash, r.default_shift, r.base_feature, some v, some now⟩
    else r)

/-! ## Identity matcher (`src/core/recognizer.py`) -/

/-- One row of the in-memory identity matrix kept by `FaceRecognizer`:
`emp_ids[i]`, `base_matrix[i]`, `dynamic_matrix[i]`,
`has_dynamic_flags[i]`. -/
structure IdRow where
  id : String
  base : Vec
  dyn : Vec
  hasDyn : Bool

/-- Thresholds and weights read from `config.yaml` in
`FaceRecognizer.__init__`. -/
structure RConfig where
  rec_threshold : ℝ
  evo_threshold : ℝ
  warn_base_th : ℝ
  evo_min_base : ℝ
  evo_min_dyn : ℝ
  base_weight : ℝ
  dynamic_weight : ℝ
  ambiguity_gap : ℝ

/-- The config defaults of `recognizer.py`: recognition 0.5, evolution
0.5, warning 0.3, evolution-min-base 0.5, evolution-min-dynamic 0.85,
base weight 0.4, dynamic weight 0.6, ambiguity gap 0.05. -/
noncomputable def cfgD : RConfig := ⟨1/2, 1/2, 3/10, 1/2, 17/20, 2/5, 3/5, 1/20⟩

/-- Model of `FaceRecognizer.reload_employees` on one employee: a missing
dynamic feature is padded with the base feature and flagged. -/
def rowOfEmployee (e : EmployeeRow) : IdRow :=
  match e.dynamic_feature with
  | some d => ⟨e.emp_id, e.base_feature, d, true⟩
  | none => ⟨e.emp_id, e.base_feature, e.base_feature, false⟩

/-- Model of `FaceRecognizer.reload_employees`: rebuild the matrix. -/
def reloadEmployees (db : List EmployeeRow) : List IdRow := db.map rowOfEmployee

/-- Probe normalization (recognizer.py lines 110-111):
`live_feat = live_feat_raw / (norm + 1e-10)`. -/
noncomputable def liveOf (raw : Vec) : Vec := scaleV (1 / (nrm raw + eps)) raw

/-- The weighted combination before renormalization (line 118):
`base_matrix * base_weight + dynamic_matrix * dynamic_weight`, one row. -/
def preFused (cfg : RConfig) (r : IdRow) : Vec :=
  addV (scaleV cfg.base_weight r.base) (scaleV cfg.dynamic_weight r.dyn)

/-- Row renormalization (lines 121-123): divide by the row norm, a zero
norm being replaced by `1e-10`. -/
noncomputable def fusedRow (cfg : RConfig) (r : IdRow) : Vec :=
  scaleV (1 / (if nrm (preFused cfg r) = 0 then eps else nrm (preFused cfg r)))
    (preFused cfg r)

/-- The scores `fused_scores = np.dot(fused_matrix, live_feat)` (line 127). -/
noncomputable def fusedScores (cfg : RConfig) (rows : List IdRow) (live : Vec) : List ℝ :=
  rows.map (fun r => dotV (fusedRow cfg r) live)

/-- Model of `FaceRecognizer.compute_similarity`: cosine similarity. -/
noncomputable def computeSimilarity (f1 f2 : Vec) : ℝ :=
  dotV f1 f2 / (nrm f1 * nrm f2)

/-- Largest score of a nonempty list (the top-1 fused score). -/
noncomputable def maxScore (l : List ℝ) : ℝ := l.foldl max (l.headD 0)

/-- Index of the top-1 score.  `np.argsort` leaves the order of tied
scores unspecified; the model picks the first maximising index, which
agrees with the code on every output it exposes (under a tie within the
ambiguity gap the branch taken does not depend on the chosen index). -/
noncomputable def argmaxIdx (l : List ℝ) : ℕ := l.findIdx (fun x => x = maxScore l)

/-- The top-2 fused score: the largest after removing one copy of the
top-1 (the second entry of the descending argsort). -/
noncomputable def secondScore (l : List ℝ) : ℝ := maxScore (l.eraseIdx (argmaxIdx l))

/-- The diagnostic dict `final_details` built by `identify`
(lines 177-184). -/
structure MatchDetails where
  base_score : ℝ
  dynamic_score : ℝ
  fused_score : ℝ
  warning : Bool
  matched_old_dynamic : Option Vec
  candidate_id : String

/-- The three shapes of dict `identify` can return: `{}` (no roster),
`{"warning": True, "reason": "ambiguous_gap"}`, or `final_details`. -/
inductive DetailsOut where
  | empty
  | ambiguousGap
  | full (d : MatchDetails)

/-- The tuple returned by `FaceRecognizer.identify`:
`(emp_id, max_fused_score, should_evolve, details, live_feat)`. -/
structure IdentifyResult where
  emp_id : Option String
  score : ℝ
  should_evolve : Bool
  details : DetailsOut
  live : Vec

/-- Placeholder row for the (never taken) out-of-range index access. -/
def defaultRow : IdRow := ⟨"", [], [], false⟩

/-- Lines 150-189 of `identify`: diagnostics, evolution decision and the
threshold acceptance for the selected candidate `bestIdx`. -/
noncomputable def finishIdentify (cfg : RConfig) (rows : List IdRow) (live : Vec)
    (s1 : ℝ) (bestIdx : ℕ) : IdentifyResult :=
  let r := rows.getD bestIdx defaultRow
  let base_score := computeSimilarity live r.base
  let dyn_score := if r.hasDyn then computeSimilarity live r.dyn else 0
  let should_evolve :=
    if r.hasDyn then decide (cfg.evo_min_base < base_score ∨ cfg.evo_min_dyn < dyn_score)
    else decide (cfg.evo_threshold < s1)
  let warning := decide (base_score < cfg.warn_base_th)
  let details := DetailsOut.full
    ⟨base_score, dyn_score, s1, warning, if r.hasDyn then some r.dyn else none, r.id⟩
  if cfg.rec_threshold ≤ s1 then ⟨some r.id, s1, should_evolve, details, live⟩
  else ⟨none, s1, false, details, live⟩

/-- Model of `FaceRecognizer.identify` (recognizer.py lines 99-189) on the raw
extracted feature: normalize the probe, score the fused matrix, run the
ambiguity check when at least two identities are enrolled, then accept or
reject the best candidate on the recognition threshold. -/
noncomputable def identify (cfg : RConfig) (rows : List IdRow) (raw : Vec) :
    IdentifyResult :=
  let live := liveOf raw
  if rows.length = 0 then ⟨none, 0, false, .empty, live⟩
  else
    let scores := fusedScores cfg rows live
    let s1 := maxScore scores
    if 2 ≤ rows.length ∧ s1 - secondScore scores < cfg.ambiguity_gap then
      ⟨none, s1, false, .ambiguousGap, live⟩
    else finishIdentify cfg rows live s1 (argmaxIdx scores)

/-! ## Feature evolution (`FaceRecognizer.process_attendance`) -/

/-- The soft-update mix `alpha * live + (1 - alpha) * old` with
`alpha = 0.1` (recognizer.py line 208). -/
noncomputable def mixVec (live old : Vec) : Vec :=
  addV (scaleV (1/10) live) (scaleV (1 - 1/10) old)

/-- The renormalized soft update (line 209). -/
noncomputable def softUpdate (live old : Vec) : Vec :=
  scaleV (1 / nrm (mixVec live old)) (mixVec live old)

/-- The evolved dynamic feature: soft update over an existing dynamic
feature, the live feature itself on cold start (lines 206-213). -/
noncomputable def newDynamic (live : Vec) (oldDyn : Option Vec) : Vec :=
  match oldDyn with
  | some old => softUpdate live old
  | none => live

/-- In-memory update (lines 219-222): replace the dynamic row and flag of
the first index whose id matches (`list.index`). -/
def setDynFirst : List IdRow → String → Vec → List IdRow
  | [], _, _ => []
  | r :: t, e, v =>
      if r.id = e then ⟨r.id, r.base, v, true⟩ :: t else r :: setDynFirst t e v

/-- The mutable state touched by `process_attendance`: the in-memory
matrix, the `employees` table and the `logs` table. -/
structure PAState where
  rows : List IdRow
  employees : List EmployeeRow
  logs : List (AttLog ℝ)

/-- Model of `FaceRecognizer.process_attendance` (recognizer.py lines 191-227):
write the attendance log (subject to debounce), then — only when the
write succeeded and `should_evolve` is set — evolve unless
`base_score < 0.4`, persisting the new dynamic feature and hot-updating
the in-memory matrix. -/
noncomputable def processAttendance (dmin now : ℚ) (st : PAState)
    (emp_id : String) (score : ℝ) (should_evolve : Bool) (live : Option Vec)
    (photo : String) (d : MatchDetails) : (Bool × Option ℤ) × PAState :=
  let res := addAttendanceLog dmin st.logs now emp_id score d.base_score d.dynamic_score photo
  if res.1.1 = true ∧ should_evolve = true then
    if d.base_score < 2/5 then (res.1, ⟨st.rows, st.employees, res.2⟩)
    else
      match live with
      | none => (res.1, ⟨st.rows, st.employees, res.2⟩)
      | some lf =>
          let nd := newDynamic lf d.matched_old_dynamic
          (res.1, ⟨if emp_id ∈ st.rows.map (fun r => r.id)
                    then setDynFirst st.rows emp_id nd else st.rows,
                   updateDynamicFeature st.employees emp_id now nd,
                   res.2⟩)
  else (res.1, ⟨st.rows, st.employees, res.2⟩)

/-- The identity-A roster row used by the concrete instances: base and
dynamic feature `[1]`, no learned dynamic. -/
def rowA : IdRow := ⟨"A", [1], [1], false⟩

/-- A second enrolled identity with the same template as `rowA`. -/
def rowB : IdRow := ⟨"B", [1], [1], false⟩

/-- On a single-face frame from an unlocked state, `process` runs exactly
the threshold/crop/texture cascade over the updated clamped score. -/
theorem processFrame_single (cfg : DConfig) (s : DState) (f : DFrame)
    (hL : s.locked = false) (h1 : f.numFaces = 1) :
    processFrame cfg s f =
      if cfg.livenessThreshold ≤ updatedScore s f then
        if f.cropNonempty then
          if cfg.textureThreshold ≤ f.texture then
            (.SUCCESS, ⟨updatedScore s f, true⟩)
          else (.SUCCESS, ⟨2/5, false⟩)
        else (.SUCCESS, ⟨updatedScore s f, false⟩)
      else (.SUCCESS, ⟨updatedScore s f, false⟩) := by
  unfold processFrame
  rw [if_neg (by omega), if_neg (by omega), if_neg (by simp [hL])]

end Evoface

namespace Evoface

/-- C3 counterexample: under the default thresholds, running the gate from
the reset state on 4 cue frames, 1 cue-less frame, then 9 cue frames ends
LOCKED — the cue-less frame subtracts `0.05` instead of erasing the
accumulated progress, so the claimed non-locking of this sequence is
false on the code. -/
theorem liveness_fail_frame_sequence_locks :
    (runFrames dcfg0 resetLiveness
      (List.replicate 4 passFrame ++ [failFrame] ++ List.replicate 9 passFrame)).locked
      = true := by
  norm_num [runFrames, processFrame, updatedScore, parallaxVal, passFrame, failFrame,
    dcfg0, resetLiveness, List.replicate]

/-- C3 (amended): the gate accumulates a clamped score rather than a pass
counter.  (a) From an unlocked state on a single-face frame, the gate locks
iff the updated clamped score reaches `livenessThreshold`, the crop is
nonempty and the texture score reaches `textureThreshold`; (b) such a frame
either leaves the score at least `score - 0.05` or sets it to the retest
value `0.4` (texture failure) — never to zero on account of a missing cue;
(c) the 4-pass/1-fail/9-pass sequence locks under the defaults; (d) 10
consecutive cue frames lock. -/
theorem liveness_score_accumulation
    (cfg : DConfig) (s : DState) (f : DFrame)
    (hL : s.locked = false) (h1 : f.numFaces = 1) (hs : s.score ≤ 6/5) :
    ((processFrame cfg s f).2.locked = true ↔
      (cfg.livenessThreshold ≤ updatedScore s f ∧ f.cropNonempty = true ∧
        cfg.textureThreshold ≤ f.texture))
    ∧ (s.score - 1/20 ≤ (processFrame cfg s f).2.score ∨
        (processFrame cfg s f).2.score = 2/5)
    ∧ (runFrames dcfg0 resetLiveness
        (List.replicate 4 passFrame ++ [failFrame] ++ List.replicate 9 passFrame)).locked
        = true
    ∧ (runFrames dcfg0 resetLiveness (List.replicate 10 passFrame)).locked = true := by
  have hgain : s.score - 1/20 ≤ updatedScore s f := by
    have hp : -(1/20) ≤ parallaxVal f.parallax := by
      cases f.parallax <;> norm_num [parallaxVal]
    have hb : (0:ℚ) ≤ if 1/10 < f.ear ∧ f.ear < 22/100 then (1:ℚ)/10 else 0 := by
      split_ifs <;> norm_num
    unfold updatedScore
    exact le_max_of_le_right (le_min (by linarith) (by linarith))
  rw [processFrame_single cfg s f hL h1]
  refine ⟨?_, ?_, ?_, ?_⟩
  · split_ifs with hth hc ht <;> simp_all
  · split_ifs with hth hc ht
    · exact Or.inl hgain
    · exact Or.inr rfl
    · exact Or.inl hgain
    · exact Or.inl hgain
  · norm_num [runFrames, processFrame, updatedScore, parallaxVal, passFrame, failFrame,
      dcfg0, resetLiveness, List.replicate]
  · norm_num [runFrames, processFrame, updatedScore, parallaxVal, passFrame,
      dcfg0, resetLiveness, List.replicate]

/-- C3 witness: the amended lock characterization and score bound applied
to a concrete unlocked state with score `0.95` and a cue frame. -/
theorem liveness_score_accumulation_instance :
    ((processFrame dcfg0 ⟨19/20, false⟩ passFrame).2.locked = true ↔
      (dcfg0.livenessThreshold ≤ updatedScore ⟨19/20, false⟩ passFrame ∧
        passFrame.cropNonempty = true ∧
        dcfg0.textureThreshold ≤ passFrame.texture))
    ∧ ((19/20 : ℚ) - 1/20 ≤ (processFrame dcfg0 ⟨19/20, false⟩ passFrame).2.score ∨
        (processFrame dcfg0 ⟨19/20, false⟩ passFrame).2.score = 2/5)
    ∧ (runFrames dcfg0 resetLiveness
        (List.replicate 4 passFrame ++ [failFrame] ++ List.replicate 9 passFrame)).locked
        = true
    ∧ (runFrames dcfg0 resetLiveness (List.replicate 10 passFrame)).locked = true :=
  liveness_score_accumulation dcfg0 ⟨19/20, false⟩ passFrame rfl rfl (by norm_num)

/-- C4 counterexample: from a mid-accumulation unlocked state (score
`0.5`), a two-face frame returns `MULTIPLE_FACES` but leaves the liveness
state untouched — the score stays `0.5`, not `0` — so the claimed reset on
multiple faces is false on the code (and no `FACE_TOO_SMALL` branch exists
in `process`). -/
theorem multi_face_does_not_reset :
    processFrame dcfg0 ⟨1/2, false⟩ twoFaceFrame = (.MULTIPLE_FACES, ⟨1/2, false⟩)
    ∧ ((1 : ℚ)/2 ≠ 0) := by
  constructor
  · norm_num [processFrame, twoFaceFrame]
  · norm_num

/-- C4 (amended): on a no-face frame `process` resets the state (score 0,
unlocked) and returns `NO_FACE`; on a multiple-face frame it returns
`MULTIPLE_FACES` with the state unchanged (no reset); `process` has no
minimum-face-size branch and never returns `FACE_TOO_SMALL`; every frame
yields one of the three produced statuses without error. -/
theorem detector_reset_statuses (cfg : DConfig) (s : DState) (f : DFrame) :
    (f.numFaces = 0 → processFrame cfg s f = (.NO_FACE, ⟨0, false⟩))
    ∧ (1 < f.numFaces → processFrame cfg s f = (.MULTIPLE_FACES, s))
    ∧ (processFrame cfg s f).1 ≠ .FACE_TOO_SMALL := by
  refine ⟨?_, ?_, ?_⟩
  · intro h0
    rw [processFrame, if_pos h0]
    rfl
  · intro h2
    rw [processFrame, if_neg (by omega), if_pos h2]
  · unfold processFrame
    split_ifs <;> simp

/-- C4 witness: the amended statuses applied to a concrete no-face frame
(both implications dischargeable at suitable inputs; here the no-face one,
with the two-face case provable from the same theorem at `twoFaceFrame`). -/
theorem detector_reset_statuses_instance :
    (processFrame dcfg0 ⟨1/2, false⟩ ⟨0, .neutral, 0, false, 0⟩ = (.NO_FACE, ⟨0, false⟩))
    ∧ (processFrame dcfg0 ⟨1/2, false⟩ twoFaceFrame = (.MULTIPLE_FACES, ⟨1/2, false⟩)) :=
  ⟨(detector_reset_statuses dcfg0 ⟨1/2, false⟩ ⟨0, .neutral, 0, false, 0⟩).1 rfl,
   (detector_reset_statuses dcfg0 ⟨1/2, false⟩ twoFaceFrame).2.1 (by norm_num [twoFaceFrame])⟩

/-- C8: reading the most recent log at `last`, an attempt inside the
debounce window is rejected with the remaining wait in whole seconds and
writes nothing; an attempt at or past the window appends the row with the
confidence and diagnostic scores and is accepted. -/
theorem debounce_rejects_within_window {α : Type} (dmin last now : ℚ)
    (logs : List (AttLog α)) (emp : String) (conf bs ds : α) (photo : String)
    (hlast : lastLogTs logs emp = some last) :
    (now - last < dmin * 60 →
      addAttendanceLog dmin logs now emp conf bs ds photo
        = ((false, some ⌊dmin * 60 - (now - last)⌋), logs))
    ∧ (dmin * 60 ≤ now - last →
      addAttendanceLog dmin logs now emp conf bs ds photo
        = ((true, none), logs ++ [⟨emp, now, conf, bs, ds, photo⟩])) := by
  constructor
  · intro h
    simp only [addAttendanceLog, hlast]
    rw [if_pos h]
  · intro h
    simp only [addAttendanceLog, hlast]
    rw [if_neg (not_lt.mpr h)]

/-- C8 witness: with `debounce_minutes = 1`, a log for identity A at
`T = 0` followed by an attempt at `T + 30` seconds is rejected with
`remaining = 30` and the table is unchanged. -/
theorem debounce_rejects_within_window_instance :
    addAttendanceLog (α := ℚ) 1 [⟨"A", 0, 1, 0, 0, "p"⟩] 30 "A" 1 0 0 "q"
      = ((false, some 30), [⟨"A", 0, 1, 0, 0, "p"⟩]) := by
  have h := (debounce_rejects_within_window (α := ℚ) 1 0 30 [⟨"A", 0, 1, 0, 0, "p"⟩]
    "A" 1 0 0 "q" rfl).1 (by norm_num)
  rw [h]
  norm_num

/-- C9: the approved backfill row is appended for every prior log list —
no debounce check — and its timestamp is the target day plus one when the
requested hour is strictly below the cutoff hour, the target day itself
otherwise; in particular with cutoff hour 4 a request at 01:00 for any
calendar day `D` resolves to `D + 1` at 01:00 (so 2024-01-10 becomes
2024-01-11 01:00). -/
theorem backfill_day_cutoff (cutoff : ℕ) (logs : List (AttLog ℚ))
    (req : ManualRequest) :
    approveRequest cutoff logs req "approved"
      = logs ++ [⟨req.emp_id,
          dayTimeToTs
            (if req.request_hour < cutoff then req.target_date + 1 else req.target_date)
            req.request_hour req.request_minute,
          1, 0, 0, "MANUAL_APPROVAL"⟩]
    ∧ (∀ day : ℤ, resolveBackfill 4 day 1 0 = (day + 1, 1, 0)) := by
  constructor
  · simp only [approveRequest, resolveBackfill, if_pos rfl]
    split_ifs <;> rfl
  · intro day
    simp only [resolveBackfill]
    rw [if_pos (by norm_num)]

/-- Lookup after a `register_employee` replacement always
yields the freshly inserted row: the surviving rows all have a different
id. -/
theorem findEmp_registerEmployee (hash : String → String) (now : ℚ)
    (db : List EmployeeRow) (emp name : String) (feat : Vec)
    (pwd shift : Option String) :
    findEmp (registerEmployee hash now db emp name feat pwd shift) emp
      = some ⟨emp, name, hash (pwdOrDefault emp pwd), shift, feat, none, some now⟩ := by
  unfold findEmp registerEmployee
  induction db with
  | nil => simp
  | cons a t ih =>
      by_cases h : a.emp_id = emp
      · simp only [List.filter_cons]
        rw [if_neg (by simp [h])]
        exact ih
      · simp only [List.filter_cons]
        rw [if_pos (by simp [h]), List.cons_append, List.find?_cons_of_neg _ (by simp [h])]
        exact ih

/-- C10: re-registering an id that already exists (here with a learned
dynamic feature) replaces the whole row: afterwards the looked-up row has
`dynamic_feature = NULL` and a password hash recomputed from the supplied
password or, in its absence, the employee id — and no surviving row for
that id keeps any dynamic feature. -/
theorem register_existing_erases_dynamic (hash : String → String) (now : ℚ)
    (db : List EmployeeRow) (emp name : String) (feat : Vec)
    (pwd shift : Option String) (old : EmployeeRow) (v : Vec)
    (hmem : old ∈ db) (hid : old.emp_id = emp) (hdyn : old.dynamic_feature = some v) :
    findEmp (registerEmployee hash now db emp name feat pwd shift) emp
      = some ⟨emp, name, hash (pwdOrDefault emp pwd), shift, feat, none, some now⟩
    ∧ ∀ r ∈ registerEmployee hash now db emp name feat pwd shift,
        r.emp_id = emp → r.dynamic_feature = none := by
  refine ⟨findEmp_registerEmployee hash now db emp name feat pwd shift, ?_⟩
  intro r hr hrid
  unfold registerEmployee at hr
  rcases List.mem_append.mp hr with hr | hr
  · exact absurd hrid (of_decide_eq_true ((List.mem_filter.mp hr).2))
  · rcases List.mem_singleton.mp hr with rfl
    rfl

/-- C10 witness: identity A, registered with a dynamic feature and hash
`h0`, re-registered with a new base template and no password: the row is
replaced, the dynamic feature is gone and the hash is recomputed from the
id. -/
theorem register_existing_erases_dynamic_instance :
    findEmp (registerEmployee (fun s => String.append s "#") 5
        [⟨"A", "Alice", "h0", none, [1], some [1], none⟩] "A" "Alice" [2] none none) "A"
      = some ⟨"A", "Alice", String.append (pwdOrDefault "A" none) "#", none, [2], none, some 5⟩
    ∧ ∀ r ∈ registerEmployee (fun s => String.append s "#") 5
        [⟨"A", "Alice", "h0", none, [1], some [1], none⟩] "A" "Alice" [2] none none,
        r.emp_id = "A" → r.dynamic_feature = none :=
  register_existing_erases_dynamic (fun s => String.append s "#") 5
    [⟨"A", "Alice", "h0", none, [1], some [1], none⟩] "A" "Alice" [2] none none
    ⟨"A", "Alice", "h0", none, [1], some [1], none⟩ [1]
    (by simp) rfl rfl

/-- Unfolding of `np.dot` on a pair of cons cells. -/
theorem dotV_cons (a b : ℝ) (as bs : Vec) :
    dotV (a :: as) (b :: bs) = a * b + dotV as bs := by
  simp [dotV]

/-- The squared norm of a cons cell. -/
theorem normSq_cons (a : ℝ) (as : Vec) : normSq (a :: as) = a * a + normSq as := by
  simp [normSq, dotV_cons]

/-- Squared norms are sums of squares, hence nonnegative. -/
theorem normSq_nonneg (v : Vec) : 0 ≤ normSq v := by
  induction v with
  | nil => simp [normSq, dotV]
  | cons a t ih =>
      rw [normSq_cons]
      nlinarith [mul_self_nonneg a]

/-- Euclidean norms are nonnegative. -/
theorem nrm_nonneg (v : Vec) : 0 ≤ nrm v := Real.sqrt_nonneg _

/-- Scaling multiplies the squared norm by the square of the factor. -/
theorem normSq_scale (c : ℝ) (v : Vec) : normSq (scaleV c v) = c ^ 2 * normSq v := by
  induction v with
  | nil => simp [normSq, dotV, scaleV]
  | cons a t ih =>
      simp only [scaleV, List.map_cons] at ih ⊢
      rw [normSq_cons, normSq_cons, ih]
      ring

/-- Norm of a scaled vector under `np.linalg.norm`. -/
theorem nrm_scale (c : ℝ) (v : Vec) : nrm (scaleV c v) = |c| * nrm v := by
  rw [nrm, normSq_scale, Real.sqrt_mul (sq_nonneg c), Real.sqrt_sq_eq_abs, nrm]

/-- Norm of a one-entry vector with a nonnegative entry. -/
theorem nrm_single (a : ℝ) (h : 0 ≤ a) : nrm [a] = a := by
  have : normSq [a] = a * a := by simp [normSq_cons, normSq, dotV]
  rw [nrm, this, Real.sqrt_mul_self h]

/-- The guard epsilon is positive. -/
theorem eps_pos : (0 : ℝ) < eps := by
  rw [eps]
  norm_num

/-- C5: (a) the normalized probe `raw / (‖raw‖ + 1e-10)` has norm within
`1e-5` of 1 for any raw feature of norm at least `1/1000` (genuine ArcFace
features have norm around 20); (b) a fused row with nonzero pre-norm is
renormalized to exactly unit norm; (c) an evolved dynamic feature — the
renormalized soft update, or on cold start the probe itself — stays
within `1e-5` of unit norm. -/
theorem embeddings_unit_norm (cfg : RConfig) :
    (∀ raw : Vec, 1/1000 ≤ nrm raw → |nrm (liveOf raw) - 1| ≤ 1/100000)
    ∧ (∀ r : IdRow, nrm (preFused cfg r) ≠ 0 → nrm (fusedRow cfg r) = 1)
    ∧ (∀ (live : Vec) (oldDyn : Option Vec), |nrm live - 1| ≤ 1/100000 →
        (∀ old, oldDyn = some old → nrm (mixVec live old) ≠ 0) →
        |nrm (newDynamic live oldDyn) - 1| ≤ 1/100000) := by
  refine ⟨?_, ?_, ?_⟩
  · intro raw hn
    have hnn : 0 ≤ nrm raw := nrm_nonneg raw
    have hpos : 0 < nrm raw + eps := by linarith [eps_pos]
    rw [liveOf, nrm_scale, abs_of_pos (one_div_pos.mpr hpos)]
    have h1 : 1 / (nrm raw + eps) * nrm raw - 1 = -(eps / (nrm raw + eps)) := by
      field_simp
    rw [h1, abs_neg, abs_of_nonneg (div_nonneg eps_pos.le hpos.le), div_le_iff₀ hpos]
    have he : eps = 1 / 10 ^ 10 := rfl
    rw [he] at *
    nlinarith [hn]
  · intro r h
    have hpos : 0 < nrm (preFused cfg r) := (nrm_nonneg _).lt_of_ne (Ne.symm h)
    rw [fusedRow, if_neg h, nrm_scale, abs_of_pos (one_div_pos.mpr hpos), one_div,
      inv_mul_cancel₀ h]
  · intro live oldDyn hl hmix
    cases oldDyn with
    | none => simpa [newDynamic] using hl
    | some old =>
        have h := hmix old rfl
        have hpos : 0 < nrm (mixVec live old) := (nrm_nonneg _).lt_of_ne (Ne.symm h)
        rw [newDynamic, softUpdate, nrm_scale, abs_of_pos (one_div_pos.mpr hpos), one_div,
          inv_mul_cancel₀ h]
        norm_num

/-- C5 witness: the probe `[1]` normalizes to within `1e-5` of unit norm,
the fused row of identity A is exactly unit, and the soft update of `[1]`
over old dynamic `[1]` is exactly unit. -/
theorem embeddings_unit_norm_instance :
    |nrm (liveOf [1]) - 1| ≤ 1/100000
    ∧ nrm (fusedRow cfgD rowA) = 1
    ∧ |nrm (newDynamic [1] (some [1])) - 1| ≤ 1/100000 := by
  have h1 : nrm [(1 : ℝ)] = 1 := nrm_single 1 zero_le_one
  have hpre : preFused cfgD rowA = [1] := by
    norm_num [preFused, scaleV, addV, rowA, cfgD]
  have hmix : mixVec [(1 : ℝ)] [(1 : ℝ)] = [1] := by
    norm_num [mixVec, scaleV, addV]
  refine ⟨(embeddings_unit_norm cfgD).1 [1] (by rw [h1]; norm_num),
    (embeddings_unit_norm cfgD).2.1 rowA (by rw [hpre, h1]; norm_num),
    (embeddings_unit_norm cfgD).2.2 [1] (some [1]) (by rw [h1]; norm_num) ?_⟩
  intro old hold
  cases hold
  rw [hmix, h1]
  norm_num

/-- The top-1 of a singleton score list. -/
theorem maxScore_singleton (c : ℝ) : maxScore [c] = c := by
  simp [maxScore]

/-- The argmax of a singleton score list. -/
theorem argmaxIdx_singleton (c : ℝ) : argmaxIdx [c] = 0 := by
  simp [argmaxIdx, List.findIdx_cons, maxScore_singleton]

/-- The top-1 of a two-element score list. -/
theorem maxScore_pair (a b : ℝ) : maxScore [a, b] = max a b := by
  simp [maxScore]

/-- The argmax of a tied two-element score list. -/
theorem argmaxIdx_pair_self (c : ℝ) : argmaxIdx [c, c] = 0 := by
  simp [argmaxIdx, List.findIdx_cons, maxScore_pair]

/-- The top-2 of a tied two-element score list. -/
theorem secondScore_pair_self (c : ℝ) : secondScore [c, c] = c := by
  simp [secondScore, argmaxIdx_pair_self, List.eraseIdx, maxScore_singleton]

/-- A roster row whose base and padded dynamic feature are both `[1]`
fuses to the unit vector `[1]` under the default weights. -/
theorem fusedRow_unit (r : IdRow) (hb : r.base = [1]) (hd : r.dyn = [1]) :
    fusedRow cfgD r = [1] := by
  have hpre : preFused cfgD r = [1] := by
    norm_num [preFused, scaleV, addV, hb, hd, cfgD]
  rw [fusedRow, hpre, nrm_single 1 zero_le_one, if_neg one_ne_zero]
  norm_num [scaleV]

/-- The normalized probe extracted from the raw feature `[1]`. -/
theorem liveOf_one : liveOf [1] = [1 / (1 + eps)] := by
  rw [liveOf, nrm_single 1 zero_le_one]
  norm_num [scaleV]

/-- The fused score of a `[1]`-templated row against the probe `[1]`. -/
theorem score_unit_row (r : IdRow) (hb : r.base = [1]) (hd : r.dyn = [1]) :
    dotV (fusedRow cfgD r) (liveOf [1]) = 1 / (1 + eps) := by
  rw [fusedRow_unit r hb hd, liveOf_one]
  simp [dotV]

/-- That fused score passes the default recognition threshold `0.5`. -/
theorem half_le_score_unit : (1 : ℝ)/2 ≤ 1 / (1 + eps) := by
  rw [div_le_div_iff₀ (by norm_num) (by linarith [eps_pos])]
  have he : eps = 1 / 10 ^ 10 := rfl
  rw [he]
  norm_num

/-- C1: with at least two enrolled identities, a top-1/top-2 fused-score
gap below `ambiguity_gap` makes `identify` return `emp_id = none` with
the ambiguous-gap details — unconditionally in the top-1 score, hence
even above `recognition_threshold`; with exactly one enrolled identity
the ambiguity branch is skipped and acceptance is decided purely by
`recognition_threshold`. -/
theorem identify_ambiguity_gate (cfg : RConfig) (rows : List IdRow) (raw : Vec) :
    (2 ≤ rows.length →
      maxScore (fusedScores cfg rows (liveOf raw))
          - secondScore (fusedScores cfg rows (liveOf raw)) < cfg.ambiguity_gap →
      identify cfg rows raw
        = ⟨none, maxScore (fusedScores cfg rows (liveOf raw)), false,
            DetailsOut.ambiguousGap, liveOf raw⟩)
    ∧ (rows.length = 1 →
        (identify cfg rows raw).details ≠ DetailsOut.ambiguousGap
        ∧ (identify cfg rows raw).emp_id
            = if cfg.rec_threshold ≤ maxScore (fusedScores cfg rows (liveOf raw))
              then some ((rows.headD defaultRow).id) else none) := by
  constructor
  · intro h2 hgap
    simp only [identify]
    rw [if_neg (by omega), if_pos ⟨h2, hgap⟩]
  · intro h1
    obtain ⟨r, rfl⟩ := List.length_eq_one.mp h1
    simp only [identify]
    rw [if_neg (by simp), if_neg (by rintro ⟨hle, -⟩; simp at hle)]
    have hidx : argmaxIdx (fusedScores cfg [r] (liveOf raw)) = 0 := by
      simp only [fusedScores, List.map_cons, List.map_nil]
      exact argmaxIdx_singleton _
    simp only [finishIdentify, hidx]
    constructor
    · split_ifs <;> simp
    · split_ifs with hth <;> simp

/-- C1 witness: identities A and B share the template `[1]`, so on probe
`[1]` both fused scores are `1/(1+1e-10)`, the gap is `0 < 0.05`, and
`identify` returns `none`/ambiguous even though the top score `≥ 0.5`
clears the recognition threshold; with A alone the ambiguity branch is
skipped and the threshold decides. -/
theorem identify_ambiguity_gate_instance :
    identify cfgD [rowA, rowB] [1]
      = ⟨none, maxScore (fusedScores cfgD [rowA, rowB] (liveOf [1])), false,
          DetailsOut.ambiguousGap, liveOf [1]⟩
    ∧ cfgD.rec_threshold ≤ maxScore (fusedScores cfgD [rowA, rowB] (liveOf [1]))
    ∧ ((identify cfgD [rowA] [1]).details ≠ DetailsOut.ambiguousGap
       ∧ (identify cfgD [rowA] [1]).emp_id
           = if cfgD.rec_threshold ≤ maxScore (fusedScores cfgD [rowA] (liveOf [1]))
             then some ((List.headD [rowA] defaultRow).id) else none) := by
  have hsc : fusedScores cfgD [rowA, rowB] (liveOf [1]) = [1/(1+eps), 1/(1+eps)] := by
    simp only [fusedScores, List.map_cons, List.map_nil]
    rw [score_unit_row rowA rfl rfl, score_unit_row rowB rfl rfl]
  have hmax : maxScore (fusedScores cfgD [rowA, rowB] (liveOf [1])) = 1/(1+eps) := by
    rw [hsc, maxScore_pair, max_self]
  refine ⟨(identify_ambiguity_gate cfgD [rowA, rowB] [1]).1 (by norm_num) ?_, ?_,
    (identify_ambiguity_gate cfgD [rowA] [1]).2 rfl⟩
  · rw [hmax, hsc, secondScore_pair_self]
    show (1:ℝ)/(1+eps) - 1/(1+eps) < 1/20
    norm_num
  · rw [hmax]
    exact half_le_score_unit

/-- C2: when the roster is nonempty and the ambiguity branch is not
taken, `identify` returns the top-1 candidate's id when its fused score
reaches `recognition_threshold` and returns `emp_id = none` otherwise —
so acceptance holds iff the threshold is met; in both outcomes the
returned score is the top-1 fused score and the details carry the
candidate's base score, dynamic score (0 without a learned dynamic),
fused score, low-base warning flag, cached old dynamic and id. -/
theorem identify_threshold_acceptance (cfg : RConfig) (rows : List IdRow) (raw : Vec)
    (hne : rows.length ≠ 0)
    (hamb : ¬ (2 ≤ rows.length ∧
        maxScore (fusedScores cfg rows (liveOf raw))
          - secondScore (fusedScores cfg rows (liveOf raw)) < cfg.ambiguity_gap)) :
    ((identify cfg rows raw).emp_id
        = if cfg.rec_threshold ≤ maxScore (fusedScores cfg rows (liveOf raw))
          then some ((rows.getD (argmaxIdx (fusedScores cfg rows (liveOf raw))) defaultRow).id)
          else none)
    ∧ (identify cfg rows raw).score = maxScore (fusedScores cfg rows (liveOf raw))
    ∧ (identify cfg rows raw).details = DetailsOut.full
        ⟨computeSimilarity (liveOf raw)
            (rows.getD (argmaxIdx (fusedScores cfg rows (liveOf raw))) defaultRow).base,
         (if (rows.getD (argmaxIdx (fusedScores cfg rows (liveOf raw))) defaultRow).hasDyn
          then computeSimilarity (liveOf raw)
            (rows.getD (argmaxIdx (fusedScores cfg rows (liveOf raw))) defaultRow).dyn
          else 0),
         maxScore (fusedScores cfg rows (liveOf raw)),
         decide (computeSimilarity (liveOf raw)
            (rows.getD (argmaxIdx (fusedScores cfg rows (liveOf raw))) defaultRow).base
            < cfg.warn_base_th),
         (if (rows.getD (argmaxIdx (fusedScores cfg rows (liveOf raw))) defaultRow).hasDyn
          then some (rows.getD (argmaxIdx (fusedScores cfg rows (liveOf raw))) defaultRow).dyn
          else none),
         (rows.getD (argmaxIdx (fusedScores cfg rows (liveOf raw))) defaultRow).id⟩ := by
  simp only [identify]
  rw [if_neg hne, if_neg hamb]
  simp only [finishIdentify]
  by_cases hth : cfg.rec_threshold ≤ maxScore (fusedScores cfg rows (liveOf raw))
  · simp only [if_pos hth]
    exact ⟨trivial, trivial, trivial⟩
  · simp only [if_neg hth]
    exact ⟨trivial, trivial, trivial⟩

/-- C2 witness: with identity A alone (no ambiguity branch) on probe
`[1]`, the returned id is the top-1 id exactly when the threshold is met
and `none` otherwise. -/
theorem identify_threshold_acceptance_instance :
    (identify cfgD [rowA] [1]).emp_id
        = if cfgD.rec_threshold ≤ maxScore (fusedScores cfgD [rowA] (liveOf [1]))
          then some ((List.getD [rowA] (argmaxIdx (fusedScores cfgD [rowA] (liveOf [1])))
            defaultRow).id)
          else none :=
  (identify_threshold_acceptance cfgD [rowA] [1] (by norm_num)
    (by rintro ⟨hle, -⟩; simp at hle)).1

/-- C6: `process_attendance` leaves both the in-memory dynamic matrix and
the employees store untouched whenever `base_score < 0.4`, or the log
write was rejected (debounce), or `should_evolve` is not set. -/
theorem evolution_blocked (dmin now : ℚ) (st : PAState) (emp : String)
    (score : ℝ) (se : Bool) (live : Option Vec) (photo : String) (d : MatchDetails)
    (h : d.base_score < 2/5
        ∨ (addAttendanceLog dmin st.logs now emp score d.base_score d.dynamic_score photo).1.1
            = false
        ∨ se = false) :
    (processAttendance dmin now st emp score se live photo d).2.rows = st.rows
    ∧ (processAttendance dmin now st emp score se live photo d).2.employees
        = st.employees := by
  simp only [processAttendance]
  by_cases hc : (addAttendanceLog dmin st.logs now emp score d.base_score d.dynamic_score
      photo).1.1 = true ∧ se = true
  · rw [if_pos hc]
    by_cases hb : d.base_score < 2/5
    · rw [if_pos hb]
      exact ⟨rfl, rfl⟩
    · rcases h with h | h | h
      · exact absurd h hb
      · exact absurd hc.1 (by simp [h])
      · exact absurd hc.2 (by simp [h])
  · rw [if_neg hc]
    exact ⟨rfl, rfl⟩

/-- C6 witness: a successful, `should_evolve` write with `base_score =
0.3 < 0.4` changes neither the matrix row nor the store. -/
theorem evolution_blocked_instance :
    (processAttendance 1 0 ⟨[rowA], [], []⟩ "A" 1 true (some [1]) "p"
        ⟨3/10, 0, 1, false, none, "A"⟩).2.rows = [rowA]
    ∧ (processAttendance 1 0 ⟨[rowA], [], []⟩ "A" 1 true (some [1]) "p"
        ⟨3/10, 0, 1, false, none, "A"⟩).2.employees = [] :=
  evolution_blocked 1 0 ⟨[rowA], [], []⟩ "A" 1 true (some [1]) "p"
    ⟨3/10, 0, 1, false, none, "A"⟩
    (Or.inl (show (3:ℝ)/10 < 2/5 by norm_num))

/-- After the in-memory hot update, the first row with the id carries the
new dynamic feature and the raised flag. -/
theorem find?_setDynFirst (rows : List IdRow) (emp : String) (v : Vec) (r0 : IdRow)
    (h : rows.find? (fun r => r.id = emp) = some r0) :
    (setDynFirst rows emp v).find? (fun r => r.id = emp)
      = some ⟨r0.id, r0.base, v, true⟩ := by
  induction rows with
  | nil => simp at h
  | cons a t ih =>
      by_cases ha : a.id = emp
      · rw [List.find?_cons_of_pos _ (by simp [ha])] at h
        cases h
        rw [setDynFirst, if_pos ha, List.find?_cons_of_pos _ (by simp [ha])]
      · rw [List.find?_cons_of_neg _ (by simp [ha])] at h
        rw [setDynFirst, if_neg ha, List.find?_cons_of_neg _ (by simp [ha])]
        exact ih h

/-- After `update_dynamic_feature`, the first row with the id carries the
new dynamic feature and timestamp. -/
theorem find?_updateDynamicFeature (db : List EmployeeRow) (emp : String)
    (now : ℚ) (v : Vec) (e0 : EmployeeRow)
    (h : db.find? (fun r => r.emp_id = emp) = some e0) :
    (updateDynamicFeature db emp now v).find? (fun r => r.emp_id = emp)
      = some ⟨e0.emp_id, e0.name, e0.password_hash, e0.default_shift, e0.base_feature,
          some v, some now⟩ := by
  induction db with
  | nil => simp at h
  | cons a t ih =>
      by_cases ha : a.emp_id = emp
      · rw [List.find?_cons_of_pos _ (by simp [ha])] at h
        cases h
        simp only [updateDynamicFeature, List.map_cons]
        rw [if_pos ha, List.find?_cons_of_pos _ (by simp [ha])]
      · rw [List.find?_cons_of_neg _ (by simp [ha])] at h
        simp only [updateDynamicFeature, List.map_cons]
        rw [if_neg ha, List.find?_cons_of_neg _ (by simp [ha])]
        exact ih h

/-- C7: when the write succeeded, `should_evolve` is set, the base-score
gate passes and the live feature is present, the evolved feature is
`normalize(0.1*probe + (1-0.1)*old_dynamic)` over an existing dynamic and
the probe itself on cold start, and both the in-memory row (feature plus
has-dynamic flag) and the employees store receive it. -/
theorem evolution_update_formula (dmin now : ℚ) (st : PAState) (emp : String)
    (score : ℝ) (photo : String) (d : MatchDetails) (lf : Vec)
    (r0 : IdRow) (e0 : EmployeeRow)
    (hsucc : (addAttendanceLog dmin st.logs now emp score d.base_score d.dynamic_score
        photo).1.1 = true)
    (hbs : ¬ (d.base_score < 2/5))
    (hrow : st.rows.find? (fun r => r.id = emp) = some r0)
    (hemp : st.employees.find? (fun r => r.emp_id = emp) = some e0) :
    (∀ old, d.matched_old_dynamic = some old →
        newDynamic lf d.matched_old_dynamic
          = scaleV (1 / nrm (addV (scaleV (1/10) lf) (scaleV (1 - 1/10) old)))
              (addV (scaleV (1/10) lf) (scaleV (1 - 1/10) old)))
    ∧ (d.matched_old_dynamic = none → newDynamic lf d.matched_old_dynamic = lf)
    ∧ (processAttendance dmin now st emp score true (some lf) photo d).2.rows.find?
          (fun r => r.id = emp)
        = some ⟨r0.id, r0.base, newDynamic lf d.matched_old_dynamic, true⟩
    ∧ (processAttendance dmin now st emp score true (some lf) photo d).2.employees.find?
          (fun r => r.emp_id = emp)
        = some ⟨e0.emp_id, e0.name, e0.password_hash, e0.default_shift, e0.base_feature,
            some (newDynamic lf d.matched_old_dynamic), some now⟩ := by
  have hmem : emp ∈ st.rows.map (fun r => r.id) := by
    have h1 : r0 ∈ st.rows := List.mem_of_find?_eq_some hrow
    have h2 : r0.id = emp := by
      have h3 := List.find?_some hrow
      simpa using h3
    exact List.mem_map.mpr ⟨r0, h1, h2⟩
  have hstate : (processAttendance dmin now st emp score true (some lf) photo d).2
      = ⟨setDynFirst st.rows emp (newDynamic lf d.matched_old_dynamic),
         updateDynamicFeature st.employees emp now (newDynamic lf d.matched_old_dynamic),
         (addAttendanceLog dmin st.logs now emp score d.base_score d.dynamic_score
           photo).2⟩ := by
    simp only [processAttendance]
    rw [if_pos ⟨hsucc, trivial⟩, if_neg hbs, if_pos hmem]
  refine ⟨?_, ?_, ?_, ?_⟩
  · intro old hold
    rw [hold]
    rfl
  · intro hold
    rw [hold]
    rfl
  · rw [hstate]
    exact find?_setDynFirst st.rows emp _ r0 hrow
  · rw [hstate]
    exact find?_updateDynamicFeature st.employees emp now _ e0 hemp

/-- C7 witness: identity A with no learned dynamic (cold start), probe
`[1]`, base score 1, empty log table: the write succeeds, the evolved
feature is the probe itself, and matrix row and store both receive it
with the flag raised. -/
theorem evolution_update_formula_instance :
    (newDynamic [1] (none : Option Vec) = [1])
    ∧ (processAttendance 1 0 ⟨[rowA], [⟨"A", "Alice", "h", none, [1], none, none⟩], []⟩
          "A" 1 true (some [1]) "p" ⟨1, 0, 1, false, none, "A"⟩).2.rows.find?
          (fun r => r.id = "A")
        = some ⟨rowA.id, rowA.base, newDynamic [1] (none : Option Vec), true⟩
    ∧ (processAttendance 1 0 ⟨[rowA], [⟨"A", "Alice", "h", none, [1], none, none⟩], []⟩
          "A" 1 true (some [1]) "p" ⟨1, 0, 1, false, none, "A"⟩).2.employees.find?
          (fun r => r.emp_id = "A")
        = some ⟨"A", "Alice", "h", none, [1], some (newDynamic [1] (none : Option Vec)),
            some 0⟩ := by
  have h := evolution_update_formula 1 0
    ⟨[rowA], [⟨"A", "Alice", "h", none, [1], none, none⟩], []⟩ "A" 1 "p"
    ⟨1, 0, 1, false, none, "A"⟩ [1] rowA ⟨"A", "Alice", "h", none, [1], none, none⟩
    rfl (show ¬ ((1:ℝ) < 2/5) by norm_num) rfl rfl
  exact ⟨h.2.1 rfl, h.2.2.1, h.2.2.2⟩

end Evoface
